import Mathlib

/-!
Verification development for the core of the playwright-bdd-framework
repository: the HTTP request client (src/api/client/ApiClient.ts) and the
self-healing locator engine (src/core/utils/auto-heal.ts), shallowly
embedded in Lean.  Waiting, transport and JSON parsing are platform
capabilities injected as explicit parameters; the control flow, data
transformations and string constants are translated from the source.
-/

/-! ## JSON values and a model of the platform's JSON.parse

The client calls the JavaScript builtin JSON.parse, which is not part of
the repository; we model JSON values and an executable parser for them.
The parser covers null, booleans, integer numerals, strings with the
common escape sequences, arrays and objects.  Fractional and exponent
numerals and unicode escapes are treated as parse failures (a documented
restriction of the model; no claim depends on them).
-/

inductive JsonValue where
  | null
  | bool (b : Bool)
  | num (n : Int)
  | str (s : String)
  | arr (elems : List JsonValue)
  | obj (fields : List (String × JsonValue))

/-- JavaScript truthiness of a JSON value (null, false, 0 and the empty
string are falsy; arrays and objects are truthy). -/
def jsonTruthy : JsonValue → Bool
  | .null => false
  | .bool b => b
  | .num n => n != 0
  | .str s => s != ""
  | .arr _ => true
  | .obj _ => true

/-- Skip JSON whitespace. -/
def skipWs : List Char → List Char
  | c :: cs => if c = ' ' ∨ c = '\t' ∨ c = '\n' ∨ c = '\r' then skipWs cs else c :: cs
  | [] => []

/-- Parse the characters of a string literal after the opening quote,
up to and including the closing quote. -/
def parseStringChars : List Char → Option (List Char × List Char)
  | [] => none
  | '"' :: rest => some ([], rest)
  | '\\' :: e :: rest =>
      match (match e with
             | '"' => some '"'
             | '\\' => some '\\'
             | '/' => some '/'
             | 'n' => some '\n'
             | 't' => some '\t'
             | 'r' => some '\r'
             | 'b' => some (Char.ofNat 8)
             | 'f' => some (Char.ofNat 12)
             | _ => none) with
      | some c =>
          match parseStringChars rest with
          | some (cs, rem) => some (c :: cs, rem)
          | none => none
      | none => none
  | c :: rest =>
      match parseStringChars rest with
      | some (cs, rem) => some (c :: cs, rem)
      | none => none

/-- Numeric value of a list of decimal digits. -/
def digitsVal (cs : List Char) : Nat :=
  cs.foldl (fun a c => 10 * a + (c.toNat - 48)) 0

/-- Parse an integer JSON numeral (optional minus sign, then digits).
A following fraction dot or exponent letter makes the whole parse fail
rather than silently reading an integer prefix. -/
def parseNumber (cs : List Char) : Option (Int × List Char) :=
  let p : Bool × List Char :=
    match cs with
    | '-' :: rest => (true, rest)
    | _ => (false, cs)
  let ds := p.2.takeWhile (·.isDigit)
  let rest := p.2.dropWhile (·.isDigit)
  if ds = [] then none
  else
    match rest with
    | '.' :: _ => none
    | 'e' :: _ => none
    | 'E' :: _ => none
    | _ => some (if p.1 then -(digitsVal ds : Int) else (digitsVal ds : Int), rest)

mutual

/-- Fuel-indexed parser for a single JSON value. -/
def parseValue : Nat → List Char → Option (JsonValue × List Char)
  | 0, _ => none
  | Nat.succ fuel, cs =>
    match skipWs cs with
    | 'n' :: 'u' :: 'l' :: 'l' :: rest => some (.null, rest)
    | 't' :: 'r' :: 'u' :: 'e' :: rest => some (.bool true, rest)
    | 'f' :: 'a' :: 'l' :: 's' :: 'e' :: rest => some (.bool false, rest)
    | '"' :: rest =>
        match parseStringChars rest with
        | some (s, rem) => some (.str (String.mk s), rem)
        | none => none
    | '[' :: rest =>
        match skipWs rest with
        | ']' :: rem => some (.arr [], rem)
        | other =>
            match parseValue fuel other with
            | some (x, rem) =>
                match parseArrayTail fuel rem with
                | some (xs, rem2) => some (.arr (x :: xs), rem2)
                | none => none
            | none => none
    | '{' :: rest =>
        match skipWs rest with
        | '}' :: rem => some (.obj [], rem)
        | '"' :: rem =>
            match parseMember fuel rem with
            | some (kv, rem2) =>
                match parseObjTail fuel rem2 with
                | some (fs, rem3) => some (.obj (kv :: fs), rem3)
                | none => none
            | none => none
        | _ => none
    | other =>
        match parseNumber other with
        | some (n, rem) => some (.num n, rem)
        | none => none

/-- Parse one object member (the opening quote of the key already
consumed): key characters, a colon, then a value. -/
def parseMember : Nat → List Char → Option ((String × JsonValue) × List Char)
  | 0, _ => none
  | Nat.succ fuel, cs =>
    match parseStringChars cs with
    | some (k, rem) =>
        match skipWs rem with
        | ':' :: rem2 =>
            match parseValue fuel rem2 with
            | some (v, rem3) => some ((String.mk k, v), rem3)
            | none => none
        | _ => none
    | none => none

/-- Parse the remainder of an array after one element: either a closing
bracket or a comma and further elements. -/
def parseArrayTail : Nat → List Char → Option (List JsonValue × List Char)
  | 0, _ => none
  | Nat.succ fuel, cs =>
    match skipWs cs with
    | ']' :: rem => some ([], rem)
    | ',' :: rem =>
        match parseValue fuel rem with
        | some (x, rem2) =>
            match parseArrayTail fuel rem2 with
            | some (xs, rem3) => some (x :: xs, rem3)
            | none => none
        | none => none
    | _ => none

/-- Parse the remainder of an object after one member: either a closing
brace or a comma and further members. -/
def parseObjTail : Nat → List Char → Option (List (String × JsonValue) × List Char)
  | 0, _ => none
  | Nat.succ fuel, cs =>
    match skipWs cs with
    | '}' :: rem => some ([], rem)
    | ',' :: rem =>
        match skipWs rem with
        | '"' :: rem2 =>
            match parseMember fuel rem2 with
            | some (kv, rem3) =>
                match parseObjTail fuel rem3 with
                | some (fs, rem4) => some (kv :: fs, rem4)
                | none => none
            | none => none
        | _ => none
    | _ => none

end

/-- Model of the platform builtin JSON.parse: parse one value and require
only whitespace to remain; any leftover input is a failure. -/
def JSON.parse (s : String) : Option JsonValue :=
  match parseValue (s.length + 2) s.data with
  | some (v, rest) => if skipWs rest = [] then some v else none
  | none => none

/-! ## HTTP request client (src/api/client/ApiClient.ts)

The Playwright APIRequestContext is the injected transport capability; a
transport outcome may depend on the attempt number, so the model passes
the 1-based attempt index alongside the dispatched request.  Thrown
JavaScript values are modelled as Option Err, where none is the JS value
null (makeRequest initializes lastError to null and rethrows it).
-/

/-- A thrown error value (transport failure or an internal Error). -/
structure Err where
  msg : String
deriving Repr, DecidableEq

/-- The raw answer the transport produces for one request: status code,
status text, headers and the body read as text. -/
structure RawResponse where
  status : Nat
  statusText : String
  headers : List (String × String)
  bodyText : String
deriving Repr, DecidableEq

/-- The request handed to the transport capability: what executeRequest
passes to the Playwright request context (requestOptions plus method and
url).  data is present only when makeRequest attached a body. -/
structure TransportRequest where
  method : String
  url : String
  headers : List (String × String)
  params : Option (List (String × String))
  data : Option JsonValue
  timeout : Nat

/-- The injected platform capabilities: the transport (indexed by the
1-based attempt number), the clock (elapsed milliseconds observed for an
attempt, modelling Date.now differences) and JSON.parse. -/
structure ApiEnv where
  transport : Nat → TransportRequest → Except Err RawResponse
  elapsedMs : Nat → Nat
  jsonParse : String → Option JsonValue

/-- Per-request options (interface ApiRequestOptions). -/
structure ApiRequestOptions where
  headers : List (String × String) := []
  params : Option (List (String × String)) := none
  body : Option JsonValue := none
  timeout : Option Nat := none
  retries : Option Nat := none

/-- The normalized response (interface ApiResponseData).  body is the
JSON-parsed structure when parsing succeeds and the raw text (as a JSON
string value, matching the JS any-typed field) when it fails. -/
structure ApiResponseData where
  status : Nat
  statusText : String
  body : JsonValue
  rawBody : String
  headers : List (String × String)
  responseTime : Nat
  url : String
  method : String

/-- parseResponse: read the raw body, try JSON.parse with fallback to the
raw text, copy the header entries, and assemble the record. -/
def parseResponse (jsonParse : String → Option JsonValue) (response : RawResponse)
    (method url : String) (responseTime : Nat) : ApiResponseData :=
  let rawBody := response.bodyText
  let body : JsonValue :=
    match jsonParse rawBody with
    | some j => j
    | none => JsonValue.str rawBody
  let headers := response.headers
  { status := response.status
    statusText := response.statusText
    body := body
    rawBody := rawBody
    headers := headers
    responseTime := responseTime
    url := url
    method := method }

/-- Lower-casing of a string, character by character (the notion of
lower-cased header keys used by the specification). -/
def jsToLower (s : String) : String :=
  String.mk (s.data.map Char.toLower)

/-- Write one key into a header map with JS object-assignment semantics:
an existing key keeps its position and gets the new value, a new key is
appended. -/
def setKey (m : List (String × String)) (k v : String) : List (String × String) :=
  if m.any (fun p => p.1 = k) then
    m.map (fun p => if p.1 = k then (k, v) else p)
  else m ++ [(k, v)]

/-- Object-spread merge of two header maps: entries of the update written
over the base in order. -/
def mergeHeaders (base upd : List (String × String)) : List (String × String) :=
  upd.foldl (fun m p => setKey m p.1 p.2) base

/-- The constructor's default header set: JSON content-type and accept,
overlaid with the caller-supplied defaults. -/
def initDefaultHeaders (userDefaults : List (String × String)) : List (String × String) :=
  mergeHeaders [("Content-Type", "application/json"), ("Accept", "application/json")]
    userDefaults

/-- JS String.prototype.startsWith, modelled on the character list. -/
def jsStartsWith (s pre : String) : Bool :=
  pre.data.isPrefixOf s.data

/-- Line 260: use the path verbatim when it starts with http, otherwise
prepend the base URL. -/
def resolveUrl (baseUrl path : String) : String :=
  if jsStartsWith path "http" then path else baseUrl ++ path

/-- Effective timeout: options.timeout or the configured default, with JS
falsiness (an explicit 0 also falls back to the default). -/
def effTimeout (options : ApiRequestOptions) (apiTimeout : Nat) : Nat :=
  match options.timeout with
  | some t => if t = 0 then apiTimeout else t
  | none => apiTimeout

/-- Effective retry budget: options.retries with nullish coalescing to 1,
so an explicit 0 is preserved. -/
def effRetries (options : ApiRequestOptions) : Nat :=
  match options.retries with
  | some r => r
  | none => 1

/-- The methods that carry a request body. -/
def bodyMethods : List String := ["POST", "PUT", "PATCH"]

/-- The methods the dispatch switch supports. -/
def supportedMethods : List String := ["GET", "POST", "PUT", "PATCH", "DELETE"]

/-- The requestOptions object executeRequest builds and dispatches: params
when provided, data only for a truthy body on a body-carrying method; none
when the method is unsupported (the switch default throws instead). -/
def buildRequest (method url : String) (headers : List (String × String))
    (options : ApiRequestOptions) (timeout : Nat) : Option TransportRequest :=
  if method ∈ supportedMethods then
    some { method := method
           url := url
           headers := headers
           params := options.params
           data := match options.body with
                   | some b => if jsonTruthy b ∧ method ∈ bodyMethods then some b else none
                   | none => none
           timeout := timeout }
  else none

/-- executeRequest: dispatch the built request through the transport, or
throw the unsupported-method Error. -/
def executeRequest (env : ApiEnv) (attempt : Nat) (method url : String)
    (headers : List (String × String)) (options : ApiRequestOptions)
    (timeout : Nat) : Except Err RawResponse :=
  match buildRequest method url headers options timeout with
  | some req => env.transport attempt req
  | none => .error ⟨"Unsupported HTTP method: " ++ method⟩

/-- Observable trace of one makeRequest call: the transport requests
issued (one per attempt, in order) and the backoff delays waited (ms). -/
structure RequestTrace where
  requests : List TransportRequest
  delays : List Nat

/-- The attempt loop of makeRequest (for attempt = 1 to maxRetries): on
transport success parse and return the response; on failure record the
error, wait 1000 x attempt when attempts remain, and continue; when the
loop ends throw the last error (initially the JS null).  The remaining
counter drives the recursion and equals maxRetries - attempt + 1. -/
def runAttempts (env : ApiEnv) (method url : String)
    (headers : List (String × String)) (options : ApiRequestOptions)
    (timeout maxRetries : Nat) :
    Nat → Nat → Option Err → RequestTrace × Except (Option Err) ApiResponseData
  | 0, _, lastError => (⟨[], []⟩, .error lastError)
  | Nat.succ remaining, attempt, _ =>
    match executeRequest env attempt method url headers options timeout with
    | .ok response =>
        let responseTime := env.elapsedMs attempt
        (⟨(buildRequest method url headers options timeout).toList, []⟩,
         .ok (parseResponse env.jsonParse response method url responseTime))
    | .error e =>
        let rest := runAttempts env method url headers options timeout maxRetries
          remaining (attempt + 1) (some e)
        (⟨(buildRequest method url headers options timeout).toList ++ rest.1.requests,
          (if attempt < maxRetries then [1000 * attempt] else []) ++ rest.1.delays⟩,
         rest.2)

/-- makeRequest: resolve the url, merge headers, resolve timeout and retry
budget, then run the attempt loop. -/
def makeRequestT (env : ApiEnv) (baseUrl : String)
    (defaultHeaders : List (String × String)) (apiTimeout : Nat)
    (method path : String) (options : ApiRequestOptions) :
    RequestTrace × Except (Option Err) ApiResponseData :=
  let url := resolveUrl baseUrl path
  let headers := mergeHeaders defaultHeaders options.headers
  let timeout := effTimeout options apiTimeout
  let maxRetries := effRetries options
  runAttempts env method url headers options timeout maxRetries maxRetries 1 none

/-- get: delegate to makeRequest with the GET method. -/
def ApiClient.get (env : ApiEnv) (baseUrl : String)
    (defaultHeaders : List (String × String)) (apiTimeout : Nat)
    (path : String) (options : ApiRequestOptions) :
    RequestTrace × Except (Option Err) ApiResponseData :=
  makeRequestT env baseUrl defaultHeaders apiTimeout "GET" path options

/-- post: delegate to makeRequest with the POST method. -/
def ApiClient.post (env : ApiEnv) (baseUrl : String)
    (defaultHeaders : List (String × String)) (apiTimeout : Nat)
    (path : String) (options : ApiRequestOptions) :
    RequestTrace × Except (Option Err) ApiResponseData :=
  makeRequestT env baseUrl defaultHeaders apiTimeout "POST" path options

/-! ## Self-healing locator engine (src/core/utils/auto-heal.ts)

Playwright pages and waits are the injected element-query capability: a
Locator is the descriptor a strategy builds, and the environment decides
whether a locator's wait for visibility within a timeout succeeds.  For
the matching claims, a page is modelled explicitly as a list of elements
and locator descriptors are given matching semantics.
-/

/-- A locator descriptor: what the strategies and call sites build from
the page object (page.locator, getByRole, getByText, getByPlaceholder,
getByTestId, and the first-match projection). -/
inductive Locator where
  | css (selector : String)
  | byRole (role : String) (name : Option String)
  | byText (text : String) (exact : Bool)
  | byPlaceholder (placeholder : String)
  | byTestId (testId : String)
  | first (inner : Locator)
deriving Repr, DecidableEq

/-- Context about the element being healed (interface ElementContext). -/
structure ElementContext where
  originalSelector : String
  role : Option String := none
  text : Option String := none
  placeholder : Option String := none
  testId : Option String := none
deriving Repr, DecidableEq

/-- Auto-heal configuration (interface AutoHealConfig). -/
structure AutoHealConfig where
  enabled : Bool
  timeout : Nat
  logWarnings : Bool
deriving Repr, DecidableEq

/-- The defaults (DEFAULT_CONFIG). -/
def DEFAULT_CONFIG : AutoHealConfig :=
  { enabled := true, timeout := 5000, logWarnings := true }

/-- One healing strategy: a name and a pure derivation of a locator from
the context (the page argument of the source closure is implicit in the
Locator descriptor). -/
structure HealingStrategy where
  name : String
  locate : ElementContext → Locator

/-- JS truthiness of an optional string field (undefined and the empty
string are falsy). -/
def strTruthy : Option String → Bool
  | none => false
  | some s => s != ""

/-- Strategy 1, By Role: getByRole on the context role, with the context
text as the accessible-name option when the text is truthy; the sentinel
selector when the role is falsy. -/
def byRoleStrategy : HealingStrategy :=
  { name := "By Role"
    locate := fun ctx =>
      if strTruthy ctx.role then
        Locator.byRole (ctx.role.getD "") (if strTruthy ctx.text then ctx.text else none)
      else Locator.css "__nonexistent__" }

/-- Strategy 2, By Text (exact): getByText with exact matching; the
sentinel selector when the text is falsy. -/
def byTextExactStrategy : HealingStrategy :=
  { name := "By Text (exact)"
    locate := fun ctx =>
      if strTruthy ctx.text then Locator.byText (ctx.text.getD "") true
      else Locator.css "__nonexistent__" }

/-- Strategy 3, By Placeholder: getByPlaceholder; the sentinel selector
when the placeholder is falsy. -/
def byPlaceholderStrategy : HealingStrategy :=
  { name := "By Placeholder"
    locate := fun ctx =>
      if strTruthy ctx.placeholder then Locator.byPlaceholder (ctx.placeholder.getD "")
      else Locator.css "__nonexistent__" }

/-- Strategy 4, By Test ID: getByTestId; the sentinel selector when the
test id is falsy. -/
def byTestIdStrategy : HealingStrategy :=
  { name := "By Test ID"
    locate := fun ctx =>
      if strTruthy ctx.testId then Locator.byTestId (ctx.testId.getD "")
      else Locator.css "__nonexistent__" }

/-- Strategy 5, By Text (partial): getByText without exact matching; the
sentinel selector when the text is falsy. -/
def byTextPartialStrategy : HealingStrategy :=
  { name := "By Text (partial)"
    locate := fun ctx =>
      if strTruthy ctx.text then Locator.byText (ctx.text.getD "") false
      else Locator.css "__nonexistent__" }

/-- The fixed ordered strategy list (HEALING_STRATEGIES). -/
def HEALING_STRATEGIES : List HealingStrategy :=
  [byRoleStrategy, byTextExactStrategy, byPlaceholderStrategy,
   byTestIdStrategy, byTextPartialStrategy]

/-- The errors autoHealLocator throws (generic Error objects in the
source; the two messages distinguish the disabled and exhausted cases). -/
inductive HealError where
  | locatorNotFound (message : String)
  | healFailed (message : String)
deriving Repr, DecidableEq

/-- The injected wait capability: whether a locator's wait for the
visible state within the given timeout (ms) succeeds. -/
structure HealEnv where
  waitVisible : Locator → Nat → Bool

/-- The strategy loop of autoHealLocator: derive each strategy's locator,
wait for its first match to become visible within 2000 ms, return the
first-match locator of the first strategy that succeeds.  Also returns
the names of the strategies evaluated, in order. -/
def tryStrategies (env : HealEnv) (ctx : ElementContext) :
    List HealingStrategy → List String × Option Locator
  | [] => ([], none)
  | s :: rest =>
    let alt := s.locate ctx
    if env.waitVisible (Locator.first alt) 2000 then ([s.name], some (Locator.first alt))
    else
      let r := tryStrategies env ctx rest
      (s.name :: r.1, r.2)

/-- autoHealLocator: wait for the primary locator within config.timeout
and return it on success; otherwise throw when healing is disabled, else
run the strategy loop and throw when it is exhausted.  The first
component is the list of fallback strategies evaluated. -/
def autoHealLocatorT (env : HealEnv) (primaryLocator : Locator)
    (context : ElementContext) (config : AutoHealConfig) :
    List String × Except HealError Locator :=
  if env.waitVisible primaryLocator config.timeout then ([], .ok primaryLocator)
  else if ¬config.enabled then
    ([], .error (.locatorNotFound
      ("Element not found: \"" ++ context.originalSelector ++ "\". Auto-heal is disabled.")))
  else
    match tryStrategies env context HEALING_STRATEGIES with
    | (tried, some loc) => (tried, .ok loc)
    | (tried, none) =>
        (tried, .error (.healFailed
          ("Auto-heal exhausted all strategies for: \"" ++ context.originalSelector ++
           "\". Element not found on the page.")))

/-! ### A concrete page model for the matching claims

An element carries the attributes the five locator kinds inspect; a page
is a list of elements in document order. -/

/-- One DOM element, reduced to the attributes the locators inspect. -/
structure Element where
  tag : String
  role : Option String := none
  accessibleName : Option String := none
  textContent : String := ""
  placeholder : Option String := none
  testId : Option String := none
deriving Repr, DecidableEq

/-- Whether the needle occurs as an infix of the haystack, on character
lists (JS String.prototype.includes). -/
def listSubstr (hay needle : List Char) : Bool :=
  match hay with
  | [] => needle.isEmpty
  | c :: t => needle.isPrefixOf (c :: t) || listSubstr t needle

/-- Substring occurrence test for the partial-text locator. -/
def strContains (hay needle : String) : Bool :=
  listSubstr hay.data needle.data

/-- Whether one element matches an atomic locator.  A css selector here
is a CSS type (tag-name) selector — the only css selectors the healing
strategies build (the sentinel __nonexistent__) are of that shape.  The
first projection is handled by matchingElements, never here. -/
def matchesOne (e : Element) : Locator → Bool
  | .css sel => e.tag = sel
  | .byRole r name =>
      e.role = some r && (match name with
                          | none => true
                          | some n => e.accessibleName = some n)
  | .byText t true => e.textContent = t
  | .byText t false => strContains e.textContent t
  | .byPlaceholder p => e.placeholder = some p
  | .byTestId id => e.testId = some id
  | .first _ => false

/-- The elements of a page a locator matches, in document order; the
first projection keeps at most the first match. -/
def matchingElements (page : List Element) : Locator → List Element
  | .first l => (matchingElements page l).take 1
  | .css sel => page.filter (fun e => matchesOne e (.css sel))
  | .byRole r name => page.filter (fun e => matchesOne e (.byRole r name))
  | .byText t exact => page.filter (fun e => matchesOne e (.byText t exact))
  | .byPlaceholder p => page.filter (fun e => matchesOne e (.byPlaceholder p))
  | .byTestId id => page.filter (fun e => matchesOne e (.byTestId id))

/-- The context field a strategy requires, selected by the strategy's
name (both text strategies require the text field). -/
def requiredField (name : String) (ctx : ElementContext) : Option String :=
  if name = "By Role" then ctx.role
  else if name = "By Placeholder" then ctx.placeholder
  else if name = "By Test ID" then ctx.testId
  else ctx.text

/-! ## Helper lemmas -/

/-- Every transport request the attempt loop issues is the one request
built from the call's method, url, headers, options and timeout. -/
theorem runAttempts_requests_built (env : ApiEnv) (method url : String)
    (headers : List (String × String)) (options : ApiRequestOptions)
    (timeout maxRetries : Nat) :
    ∀ (remaining attempt : Nat) (last : Option Err) (req : TransportRequest),
      req ∈ (runAttempts env method url headers options timeout maxRetries
        remaining attempt last).1.requests →
      buildRequest method url headers options timeout = some req := by
  intro remaining
  induction remaining with
  | zero => intro attempt last req h; simp [runAttempts] at h
  | succ r ih =>
    intro attempt last req h
    rw [runAttempts] at h
    cases hE : executeRequest env attempt method url headers options timeout with
    | ok response =>
      rw [hE] at h
      simp only at h
      rcases Option.mem_toList.mp h with hm
      exact hm
    | error e =>
      rw [hE] at h
      simp only [List.mem_append] at h
      rcases h with h | h
      · exact Option.mem_toList.mp h
      · exact ih (attempt + 1) (some e) req h

/-- The url field of the built transport request is the resolved url. -/
theorem buildRequest_url (method url : String) (headers : List (String × String))
    (options : ApiRequestOptions) (timeout : Nat) (req : TransportRequest)
    (h : buildRequest method url headers options timeout = some req) :
    req.url = url := by
  unfold buildRequest at h
  split at h
  · cases h; rfl
  · cases h

/-- When the method is supported and the transport fails at every
attempt, the loop makes one attempt per unit of budget and ends with the
error of the last attempt. -/
theorem runAttempts_all_fail (env : ApiEnv) (method url : String)
    (headers : List (String × String)) (options : ApiRequestOptions)
    (timeout maxRetries : Nat) (req : TransportRequest) (e : Nat → Err)
    (hb : buildRequest method url headers options timeout = some req)
    (hfail : ∀ k, env.transport k req = .error (e k)) :
    ∀ (remaining attempt : Nat) (last : Option Err),
      (runAttempts env method url headers options timeout maxRetries
        (remaining + 1) attempt last).1.requests.length = remaining + 1 ∧
      (runAttempts env method url headers options timeout maxRetries
        (remaining + 1) attempt last).2 = .error (some (e (attempt + remaining))) := by
  intro remaining
  induction remaining with
  | zero =>
    intro attempt last
    rw [runAttempts]
    simp [executeRequest, hb, hfail attempt, runAttempts]
  | succ r ih =>
    intro attempt last
    rw [runAttempts]
    simp only [executeRequest, hb, hfail attempt]
    constructor
    · simp [(ih (attempt + 1) (some (e attempt))).1]
    · have h2 := (ih (attempt + 1) (some (e attempt))).2
      have ha : attempt + 1 + r = attempt + (r + 1) := by omega
      rw [ha] at h2
      simp [h2]

/-- With a positive remaining budget the loop issues at least one
transport request (the method being supported). -/
theorem runAttempts_requests_pos (env : ApiEnv) (method url : String)
    (headers : List (String × String)) (options : ApiRequestOptions)
    (timeout maxRetries : Nat) (req : TransportRequest)
    (hb : buildRequest method url headers options timeout = some req) :
    ∀ (remaining attempt : Nat) (last : Option Err),
      1 ≤ (runAttempts env method url headers options timeout maxRetries
        (remaining + 1) attempt last).1.requests.length := by
  intro remaining attempt last
  rw [runAttempts]
  cases hE : executeRequest env attempt method url headers options timeout with
  | ok response => simp [hb]
  | error e => simp [hb]

/-- Along the real loop (where the remaining budget plus the 1-based
attempt index is maxRetries + 1), the recorded backoff delays are exactly
1000 x k for the attempt indices k of all attempts made but the last. -/
theorem runAttempts_delays (env : ApiEnv) (method url : String)
    (headers : List (String × String)) (options : ApiRequestOptions)
    (timeout maxRetries : Nat) (req : TransportRequest)
    (hb : buildRequest method url headers options timeout = some req) :
    ∀ (remaining attempt : Nat) (last : Option Err),
      attempt + remaining = maxRetries + 1 →
      (runAttempts env method url headers options timeout maxRetries
        remaining attempt last).1.delays =
      (List.range' attempt ((runAttempts env method url headers options timeout maxRetries
        remaining attempt last).1.requests.length - 1)).map (fun k => 1000 * k) := by
  intro remaining
  induction remaining with
  | zero => intro attempt last hinv; simp [runAttempts]
  | succ r ih =>
    intro attempt last hinv
    rw [runAttempts]
    cases hE : executeRequest env attempt method url headers options timeout with
    | ok response => simp [hb]
    | error e =>
      by_cases hlt : attempt < maxRetries
      · obtain ⟨r', rfl⟩ : ∃ r', r = r' + 1 := ⟨r - 1, by omega⟩
        have hpos := runAttempts_requests_pos env method url headers options timeout
          maxRetries req hb r' (attempt + 1) (some e)
        have ihh := ih (attempt + 1) (some e) (by omega)
        obtain ⟨b', hb'⟩ : ∃ b', (runAttempts env method url headers options timeout
            maxRetries (r' + 1) (attempt + 1) (some e)).1.requests.length = b' + 1 :=
          ⟨(runAttempts env method url headers options timeout maxRetries (r' + 1)
              (attempt + 1) (some e)).1.requests.length - 1, by omega⟩
        simp only [hb, Option.toList_some, hlt, if_pos, List.singleton_append,
          List.length_cons, hb', ihh]
        simp [List.range'_succ]
      · have hr0 : r = 0 := by omega
        subst hr0
        simp [hb, hlt, runAttempts]

/-- The strategy loop returns the first-match locator of the first
strategy whose visibility wait succeeds, evaluating exactly the
strategies up to and including that one, in list order. -/
theorem tryStrategies_first_success (env : HealEnv) (ctx : ElementContext) :
    ∀ (ss : List HealingStrategy) (i : Nat) (hi : i < ss.length),
      (∀ j (hj : j < i),
        env.waitVisible (Locator.first ((ss.get ⟨j, Nat.lt_trans hj hi⟩).locate ctx)) 2000
          = false) →
      env.waitVisible (Locator.first ((ss.get ⟨i, hi⟩).locate ctx)) 2000 = true →
      tryStrategies env ctx ss =
        ((ss.take (i + 1)).map (fun s => s.name),
         some (Locator.first ((ss.get ⟨i, hi⟩).locate ctx))) := by
  intro ss
  induction ss with
  | nil => intro i hi; exact absurd hi (by simp)
  | cons s rest ih =>
    intro i hi hbefore hit
    cases i with
    | zero =>
      have hit0 : env.waitVisible (Locator.first (s.locate ctx)) 2000 = true := hit
      rw [tryStrategies]
      simp [hit0]
    | succ i' =>
      have h0 : env.waitVisible (Locator.first (s.locate ctx)) 2000 = false :=
        hbefore 0 (Nat.succ_pos i')
      have hi' : i' < rest.length := Nat.lt_of_succ_lt_succ hi
      have hbefore' : ∀ j (hj : j < i'),
          env.waitVisible (Locator.first ((rest.get ⟨j, Nat.lt_trans hj hi'⟩).locate ctx)) 2000
            = false := fun j hj => hbefore (j + 1) (Nat.succ_lt_succ hj)
      have hit' : env.waitVisible (Locator.first ((rest.get ⟨i', hi'⟩).locate ctx)) 2000
          = true := hit
      simp only [tryStrategies, h0, Bool.false_eq_true, if_false]
      rw [ih i' hi' hbefore' hit']
      simp

/-! ## Claim theorems -/

/-- C1: whenever the transport answers the first attempt with an HTTP
response of any status (404 included), makeRequest returns the normalized
ApiResponseData carrying that status as a value — no exception is thrown
and no further transport attempt is made. -/
theorem makeRequest_returns_http_status (env : ApiEnv) (baseUrl : String)
    (dh : List (String × String)) (apiTimeout : Nat) (method path : String)
    (options : ApiRequestOptions) (req : TransportRequest) (resp : RawResponse)
    (hb : buildRequest method (resolveUrl baseUrl path) (mergeHeaders dh options.headers)
      options (effTimeout options apiTimeout) = some req)
    (hr : 1 ≤ effRetries options)
    (hok : env.transport 1 req = .ok resp) :
    makeRequestT env baseUrl dh apiTimeout method path options =
      (⟨[req], []⟩,
       .ok (parseResponse env.jsonParse resp method (resolveUrl baseUrl path)
         (env.elapsedMs 1))) ∧
    (parseResponse env.jsonParse resp method (resolveUrl baseUrl path)
      (env.elapsedMs 1)).status = resp.status := by
  obtain ⟨m, hm⟩ : ∃ m, effRetries options = m + 1 := ⟨effRetries options - 1, by omega⟩
  constructor
  · simp only [makeRequestT]
    rw [hm]
    simp [runAttempts, executeRequest, hb, hok]
  · rfl

/-- C1 witness: a transport answering 404 on the first attempt yields a
returned value with status 404 after exactly one attempt. -/
theorem makeRequest_returns_http_status_witness :
    (1 : Nat) ≤ effRetries {} ∧
    makeRequestT ⟨fun _ _ => .ok ⟨404, "Not Found", [], "missing"⟩, fun _ => 5, JSON.parse⟩
        "https://api.example" [] 15000 "GET" "/users" {} =
      (⟨[⟨"GET", "https://api.example/users", [], none, none, 15000⟩], []⟩,
       .ok (parseResponse JSON.parse ⟨404, "Not Found", [], "missing"⟩ "GET"
         "https://api.example/users" 5)) ∧
    (parseResponse JSON.parse ⟨404, "Not Found", [], "missing"⟩ "GET"
      "https://api.example/users" 5).status = 404 :=
  ⟨by decide,
   (makeRequest_returns_http_status
     ⟨fun _ _ => .ok ⟨404, "Not Found", [], "missing"⟩, fun _ => 5, JSON.parse⟩
     "https://api.example" [] 15000 "GET" "/users" {}
     ⟨"GET", "https://api.example/users", [], none, none, 15000⟩
     ⟨404, "Not Found", [], "missing"⟩ rfl (by decide) rfl).1,
   (makeRequest_returns_http_status
     ⟨fun _ _ => .ok ⟨404, "Not Found", [], "missing"⟩, fun _ => 5, JSON.parse⟩
     "https://api.example" [] 15000 "GET" "/users" {}
     ⟨"GET", "https://api.example/users", [], none, none, 15000⟩
     ⟨404, "Not Found", [], "missing"⟩ rfl (by decide) rfl).2⟩

/-- C2: with retry budget retries = n (n at least 1) and a transport that
throws on every attempt, makeRequest makes exactly n transport attempts
and then throws the error of the n-th attempt. -/
theorem makeRequest_retry_exhaustion (env : ApiEnv) (baseUrl : String)
    (dh : List (String × String)) (apiTimeout : Nat) (method path : String)
    (options : ApiRequestOptions) (n : Nat) (req : TransportRequest) (e : Nat → Err)
    (hb : buildRequest method (resolveUrl baseUrl path) (mergeHeaders dh options.headers)
      options (effTimeout options apiTimeout) = some req)
    (hr : options.retries = some n) (hn : 1 ≤ n)
    (hfail : ∀ k, env.transport k req = .error (e k)) :
    (makeRequestT env baseUrl dh apiTimeout method path options).1.requests.length = n ∧
    (makeRequestT env baseUrl dh apiTimeout method path options).2 =
      .error (some (e n)) := by
  obtain ⟨m, rfl⟩ : ∃ m, n = m + 1 := ⟨n - 1, by omega⟩
  have heff : effRetries options = m + 1 := by simp [effRetries, hr]
  have h := runAttempts_all_fail env method (resolveUrl baseUrl path)
    (mergeHeaders dh options.headers) options (effTimeout options apiTimeout)
    (m + 1) req e hb hfail m 1 none
  have hgoal : makeRequestT env baseUrl dh apiTimeout method path options =
      runAttempts env method (resolveUrl baseUrl path) (mergeHeaders dh options.headers)
        options (effTimeout options apiTimeout) (m + 1) (m + 1) 1 none := by
    simp only [makeRequestT]
    rw [heff]
  rw [hgoal]
  refine ⟨h.1, ?_⟩
  rw [h.2]
  have : 1 + m = m + 1 := by omega
  rw [this]

/-- C2 witness: with retries = 2 and a transport failing both attempts,
the client makes exactly 2 attempts and throws the second error. -/
theorem makeRequest_retry_exhaustion_witness :
    (makeRequestT ⟨fun k _ => .error ⟨"boom " ++ toString k⟩, fun _ => 0, JSON.parse⟩
      "https://api.example" [] 15000 "GET" "/users"
      { retries := some 2 }).1.requests.length = 2 ∧
    (makeRequestT ⟨fun k _ => .error ⟨"boom " ++ toString k⟩, fun _ => 0, JSON.parse⟩
      "https://api.example" [] 15000 "GET" "/users"
      { retries := some 2 }).2 = .error (some ⟨"boom 2"⟩) :=
  makeRequest_retry_exhaustion
    ⟨fun k _ => .error ⟨"boom " ++ toString k⟩, fun _ => 0, JSON.parse⟩
    "https://api.example" [] 15000 "GET" "/users" { retries := some 2 } 2
    ⟨"GET", "https://api.example/users", [], none, none, 15000⟩
    (fun k => ⟨"boom " ++ toString k⟩) rfl rfl (by decide) (fun _ => rfl)

/-- C10: an explicit retries = 0 is preserved by the nullish coalescing,
the attempt loop body never runs, no transport request is issued, and
makeRequest throws the initial null value of lastError. -/
theorem makeRequest_zero_retries_throws_null (env : ApiEnv) (baseUrl : String)
    (dh : List (String × String)) (apiTimeout : Nat) (method path : String)
    (options : ApiRequestOptions) (h : options.retries = some 0) :
    makeRequestT env baseUrl dh apiTimeout method path options = (⟨[], []⟩, .error none) := by
  simp [makeRequestT, effRetries, h, runAttempts]

/-- C10 witness: retries = 0 concretely yields zero issued requests and a
thrown null. -/
theorem makeRequest_zero_retries_throws_null_witness :
    ({ retries := some 0 } : ApiRequestOptions).retries = some 0 ∧
    makeRequestT ⟨fun _ _ => .ok ⟨200, "OK", [], ""⟩, fun _ => 0, JSON.parse⟩
      "https://api.example" [] 15000 "GET" "/users" { retries := some 0 } =
      (⟨[], []⟩, .error none) :=
  ⟨rfl,
   makeRequest_zero_retries_throws_null
     ⟨fun _ _ => .ok ⟨200, "OK", [], ""⟩, fun _ => 0, JSON.parse⟩
     "https://api.example" [] 15000 "GET" "/users" { retries := some 0 } rfl⟩

/-- C5: every transport request issued by get carries the path verbatim
as its url when the path starts with the http scheme prefix, and the base
URL concatenated with the path otherwise; in particular the absolute path
https://other.example/x on a client with base https://api.example
resolves to https://other.example/x, never the concatenation. -/
theorem get_absolute_url_bypass :
    (∀ (env : ApiEnv) (baseUrl : String) (dh : List (String × String)) (apiTimeout : Nat)
       (path : String) (options : ApiRequestOptions) (req : TransportRequest),
       req ∈ (ApiClient.get env baseUrl dh apiTimeout path options).1.requests →
       req.url = if jsStartsWith path "http" then path else baseUrl ++ path) ∧
    resolveUrl "https://api.example" "https://other.example/x" =
      "https://other.example/x" := by
  constructor
  · intro env baseUrl dh apiTimeout path options req hmem
    simp only [ApiClient.get, makeRequestT] at hmem
    have hb := runAttempts_requests_built env "GET" (resolveUrl baseUrl path)
      (mergeHeaders dh options.headers) options (effTimeout options apiTimeout)
      (effRetries options) (effRetries options) 1 none req hmem
    have hu := buildRequest_url "GET" (resolveUrl baseUrl path)
      (mergeHeaders dh options.headers) options (effTimeout options apiTimeout) req hb
    rw [hu, resolveUrl]
  · rfl

/-- C5 witness: the concrete absolute-path request is dispatched to the
absolute URL itself. -/
theorem get_absolute_url_bypass_witness :
    (⟨"GET", "https://other.example/x", [], none, none, 15000⟩ : TransportRequest) ∈
      (ApiClient.get ⟨fun _ _ => .ok ⟨200, "OK", [], ""⟩, fun _ => 0, JSON.parse⟩
        "https://api.example" [] 15000 "https://other.example/x" {}).1.requests ∧
    (⟨"GET", "https://other.example/x", [], none, none, 15000⟩ : TransportRequest).url =
      if jsStartsWith "https://other.example/x" "http" then "https://other.example/x"
      else "https://api.example" ++ "https://other.example/x" := by
  have he : (ApiClient.get ⟨fun _ _ => .ok ⟨200, "OK", [], ""⟩, fun _ => 0, JSON.parse⟩
      "https://api.example" [] 15000 "https://other.example/x" {}).1.requests =
      [⟨"GET", "https://other.example/x", [], none, none, 15000⟩] := rfl
  have hmem : (⟨"GET", "https://other.example/x", [], none, none, 15000⟩ : TransportRequest) ∈
      (ApiClient.get ⟨fun _ _ => .ok ⟨200, "OK", [], ""⟩, fun _ => 0, JSON.parse⟩
        "https://api.example" [] 15000 "https://other.example/x" {}).1.requests := by
    rw [he]; exact List.mem_singleton.mpr rfl
  exact ⟨hmem, get_absolute_url_bypass.1 _ _ _ _ _ _ _ hmem⟩

/-- C9: the backoff delays a request waits are exactly 1000 x k for the
1-based indices k of all attempts made but the last, hence non-decreasing
(linear backoff); and a transport failing twice then succeeding on the
third attempt with retries = 3 returns the successful result after
delays of 1000 and 2000 ms. -/
theorem makeRequest_linear_backoff :
    (∀ (env : ApiEnv) (baseUrl : String) (dh : List (String × String)) (apiTimeout : Nat)
       (method path : String) (options : ApiRequestOptions) (req : TransportRequest),
       buildRequest method (resolveUrl baseUrl path) (mergeHeaders dh options.headers)
         options (effTimeout options apiTimeout) = some req →
       (makeRequestT env baseUrl dh apiTimeout method path options).1.delays =
         (List.range' 1
           ((makeRequestT env baseUrl dh apiTimeout method path
             options).1.requests.length - 1)).map (fun k => 1000 * k) ∧
       (makeRequestT env baseUrl dh apiTimeout method path
         options).1.delays.Pairwise (· ≤ ·)) ∧
    (∀ (env : ApiEnv) (baseUrl : String) (dh : List (String × String)) (apiTimeout : Nat)
       (method path : String) (options : ApiRequestOptions) (req : TransportRequest)
       (e1 e2 : Err) (resp : RawResponse),
       buildRequest method (resolveUrl baseUrl path) (mergeHeaders dh options.headers)
         options (effTimeout options apiTimeout) = some req →
       options.retries = some 3 →
       env.transport 1 req = .error e1 →
       env.transport 2 req = .error e2 →
       env.transport 3 req = .ok resp →
       makeRequestT env baseUrl dh apiTimeout method path options =
         (⟨[req, req, req], [1000, 2000]⟩,
          .ok (parseResponse env.jsonParse resp method (resolveUrl baseUrl path)
            (env.elapsedMs 3)))) := by
  constructor
  · intro env baseUrl dh apiTimeout method path options req hb
    have hd := runAttempts_delays env method (resolveUrl baseUrl path)
      (mergeHeaders dh options.headers) options (effTimeout options apiTimeout)
      (effRetries options) req hb (effRetries options) 1 none (by omega)
    constructor
    · simpa only [makeRequestT] using hd
    · have hplt : (List.range' 1 ((makeRequestT env baseUrl dh apiTimeout method path
          options).1.requests.length - 1)).Pairwise (· < ·) :=
        List.pairwise_lt_range' _ _
      have heq : (makeRequestT env baseUrl dh apiTimeout method path options).1.delays =
          (List.range' 1 ((makeRequestT env baseUrl dh apiTimeout method path
            options).1.requests.length - 1)).map (fun k => 1000 * k) := by
        simpa only [makeRequestT] using hd
      rw [heq]
      exact List.Pairwise.map (fun k => 1000 * k)
        (fun a b hab => Nat.mul_le_mul_left 1000 (Nat.le_of_lt hab)) hplt
  · intro env baseUrl dh apiTimeout method path options req e1 e2 resp hb hr h1 h2 h3
    have heff : effRetries options = 3 := by simp [effRetries, hr]
    simp only [makeRequestT, heff]
    simp [runAttempts, executeRequest, hb, h1, h2, h3]

/-- C9 witness: a transport failing attempts 1 and 2 and succeeding on
attempt 3, with retries = 3, returns the parsed third response after
waiting 1000 and then 2000 ms. -/
theorem makeRequest_linear_backoff_witness :
    makeRequestT ⟨fun k _ => if k ≤ 2 then .error ⟨"netfail"⟩ else .ok ⟨200, "OK", [], "ok"⟩,
        fun _ => 8, JSON.parse⟩
      "https://api.example" [] 15000 "GET" "/posts" { retries := some 3 } =
      (⟨[⟨"GET", "https://api.example/posts", [], none, none, 15000⟩,
         ⟨"GET", "https://api.example/posts", [], none, none, 15000⟩,
         ⟨"GET", "https://api.example/posts", [], none, none, 15000⟩], [1000, 2000]⟩,
       .ok (parseResponse JSON.parse ⟨200, "OK", [], "ok"⟩ "GET"
         "https://api.example/posts" 8)) ∧
    (makeRequestT ⟨fun k _ => if k ≤ 2 then .error ⟨"netfail"⟩ else .ok ⟨200, "OK", [], "ok"⟩,
        fun _ => 8, JSON.parse⟩
      "https://api.example" [] 15000 "GET" "/posts"
      { retries := some 3 }).1.delays.Pairwise (· ≤ ·) :=
  ⟨makeRequest_linear_backoff.2
    ⟨fun k _ => if k ≤ 2 then .error ⟨"netfail"⟩ else .ok ⟨200, "OK", [], "ok"⟩,
     fun _ => 8, JSON.parse⟩
    "https://api.example" [] 15000 "GET" "/posts" { retries := some 3 }
    ⟨"GET", "https://api.example/posts", [], none, none, 15000⟩
    ⟨"netfail"⟩ ⟨"netfail"⟩ ⟨200, "OK", [], "ok"⟩ rfl rfl rfl rfl rfl,
   (makeRequest_linear_backoff.1
     ⟨fun k _ => if k ≤ 2 then .error ⟨"netfail"⟩ else .ok ⟨200, "OK", [], "ok"⟩,
      fun _ => 8, JSON.parse⟩
     "https://api.example" [] 15000 "GET" "/posts" { retries := some 3 }
     ⟨"GET", "https://api.example/posts", [], none, none, 15000⟩ rfl).2⟩

/-- C3 counterexample: a transport response supplying a header key with
upper-case letters reaches the returned ApiResponseData verbatim, so the
returned header keys are not all lower-cased. -/
theorem parseResponse_headers_not_lowercased :
    ¬ (∀ kv ∈ (parseResponse JSON.parse ⟨200, "OK", [("X-Request-Id", "abc")], ""⟩
        "GET" "https://api.example/x" 0).headers, kv.1 = jsToLower kv.1) := by
  decide

/-- C3 amended: parseResponse copies the header entries of the transport
response verbatim, with no case normalization; consequently the returned
keys are all lower-case exactly when the transport supplied lower-case
keys (as Playwright's headers accessor does). -/
theorem parseResponse_headers_verbatim (jp : String → Option JsonValue)
    (resp : RawResponse) (method url : String) (t : Nat) :
    (parseResponse jp resp method url t).headers = resp.headers ∧
    ((∀ kv ∈ resp.headers, kv.1 = jsToLower kv.1) →
      ∀ kv ∈ (parseResponse jp resp method url t).headers, kv.1 = jsToLower kv.1) := by
  refine ⟨rfl, ?_⟩
  intro h kv hkv
  exact h kv hkv

/-- C3 witness: a transport response with lower-case keys yields verbatim
lower-case keys in the result. -/
theorem parseResponse_headers_verbatim_witness :
    (parseResponse JSON.parse ⟨200, "OK", [("content-type", "application/json")], ""⟩
      "GET" "u" 0).headers = [("content-type", "application/json")] ∧
    (∀ kv ∈ (parseResponse JSON.parse ⟨200, "OK", [("content-type", "application/json")], ""⟩
      "GET" "u" 0).headers, kv.1 = jsToLower kv.1) :=
  ⟨(parseResponse_headers_verbatim JSON.parse
      ⟨200, "OK", [("content-type", "application/json")], ""⟩ "GET" "u" 0).1,
   (parseResponse_headers_verbatim JSON.parse
      ⟨200, "OK", [("content-type", "application/json")], ""⟩ "GET" "u" 0).2 (by decide)⟩

/-- C4: rawBody is always the transport body text unchanged; body is the
JSON-parse of that text when parsing succeeds and the raw text itself
when it fails; concretely not-json-brace stays a string with rawBody
unchanged, while the object text parses to the object with field a = 1
and rawBody unchanged. -/
theorem parseResponse_json_fallback :
    (∀ (jp : String → Option JsonValue) (resp : RawResponse) (method url : String) (t : Nat),
       (parseResponse jp resp method url t).rawBody = resp.bodyText ∧
       (∀ j, jp resp.bodyText = some j → (parseResponse jp resp method url t).body = j) ∧
       (jp resp.bodyText = none →
         (parseResponse jp resp method url t).body = JsonValue.str resp.bodyText)) ∧
    JSON.parse "not-json\x7b" = none ∧
    JSON.parse "\x7b\"a\":1\x7d" = some (JsonValue.obj [("a", JsonValue.num 1)]) ∧
    (parseResponse JSON.parse ⟨200, "OK", [], "not-json\x7b"⟩ "GET" "u" 0).body =
      JsonValue.str "not-json\x7b" ∧
    (parseResponse JSON.parse ⟨200, "OK", [], "not-json\x7b"⟩ "GET" "u" 0).rawBody =
      "not-json\x7b" ∧
    (parseResponse JSON.parse ⟨200, "OK", [], "\x7b\"a\":1\x7d"⟩ "GET" "u" 0).body =
      JsonValue.obj [("a", JsonValue.num 1)] ∧
    (parseResponse JSON.parse ⟨200, "OK", [], "\x7b\"a\":1\x7d"⟩ "GET" "u" 0).rawBody =
      "\x7b\"a\":1\x7d" := by
  refine ⟨?_, rfl, rfl, rfl, rfl, rfl, rfl⟩
  intro jp resp method url t
  refine ⟨rfl, ?_, ?_⟩
  · intro j hj
    simp [parseResponse, hj]
  · intro hn
    simp [parseResponse, hn]

/-- C4 witness: a plain-text body degrades to the raw string while
rawBody carries the same text. -/
theorem parseResponse_json_fallback_witness :
    (parseResponse JSON.parse ⟨200, "OK", [], "plain text"⟩ "GET" "u" 7).rawBody =
      "plain text" ∧
    (parseResponse JSON.parse ⟨200, "OK", [], "plain text"⟩ "GET" "u" 7).body =
      JsonValue.str "plain text" :=
  ⟨(parseResponse_json_fallback.1 JSON.parse ⟨200, "OK", [], "plain text"⟩ "GET" "u" 7).1,
   (parseResponse_json_fallback.1 JSON.parse ⟨200, "OK", [], "plain text"⟩ "GET" "u" 7).2.2
     rfl⟩

/-- C6: with healing disabled and a primary query that does not become
visible within the configured timeout, the resolver throws the
LocatorNotFound error naming the original selector, and no fallback
strategy is evaluated (the evaluated-strategy list is empty). -/
theorem autoHeal_disabled_fails_fast (env : HealEnv) (primary : Locator)
    (ctx : ElementContext) (config : AutoHealConfig)
    (hfail : env.waitVisible primary config.timeout = false)
    (hdis : config.enabled = false) :
    autoHealLocatorT env primary ctx config =
      ([], .error (.locatorNotFound
        ("Element not found: \"" ++ ctx.originalSelector ++
         "\". Auto-heal is disabled."))) := by
  simp [autoHealLocatorT, hfail, hdis]

/-- C6 witness: a never-visible environment with healing disabled throws
the disabled-healing error for the concrete selector and evaluates no
strategy. -/
theorem autoHeal_disabled_fails_fast_witness :
    (⟨fun _ _ => false⟩ : HealEnv).waitVisible (Locator.css "#login-button") 5000 = false ∧
    autoHealLocatorT ⟨fun _ _ => false⟩ (Locator.css "#login-button")
      ⟨"#login-button", none, none, none, none⟩ ⟨false, 5000, true⟩ =
      ([], .error (.locatorNotFound
        "Element not found: \"#login-button\". Auto-heal is disabled.")) :=
  ⟨rfl,
   autoHeal_disabled_fails_fast ⟨fun _ _ => false⟩ (Locator.css "#login-button")
     ⟨"#login-button", none, none, none, none⟩ ⟨false, 5000, true⟩ rfl rfl⟩

/-- C7: when healing runs (primary wait failed, healing enabled), the
fixed strategy order decides the winner: if every strategy before index i
fails its visibility wait and strategy i succeeds, the result is strategy
i's first-match locator; exactly the strategies up to and including i are
evaluated, in order and each at most once, and no later strategy is
evaluated — regardless of whether a later strategy would also match. -/
theorem autoHeal_strategy_order (env : HealEnv) (primary : Locator)
    (ctx : ElementContext) (config : AutoHealConfig) (i : Nat)
    (hi : i < HEALING_STRATEGIES.length)
    (hprimary : env.waitVisible primary config.timeout = false)
    (henabled : config.enabled = true)
    (hbefore : ∀ j (hj : j < i),
      env.waitVisible (Locator.first ((HEALING_STRATEGIES.get
        ⟨j, Nat.lt_trans hj hi⟩).locate ctx)) 2000 = false)
    (hit : env.waitVisible
      (Locator.first ((HEALING_STRATEGIES.get ⟨i, hi⟩).locate ctx)) 2000 = true) :
    autoHealLocatorT env primary ctx config =
      ((HEALING_STRATEGIES.take (i + 1)).map (fun s => s.name),
       .ok (Locator.first ((HEALING_STRATEGIES.get ⟨i, hi⟩).locate ctx))) ∧
    ((HEALING_STRATEGIES.take (i + 1)).map (fun s => s.name)).Nodup := by
  constructor
  · simp only [autoHealLocatorT, hprimary, Bool.false_eq_true, if_false, henabled,
      not_true, Bool.true_eq_false]
    rw [tryStrategies_first_success env ctx HEALING_STRATEGIES i hi hbefore hit]
  · have h1 : List.Sublist ((HEALING_STRATEGIES.take (i + 1)).map (fun s => s.name))
        (HEALING_STRATEGIES.map (fun s => s.name)) :=
      (List.take_sublist (i + 1) HEALING_STRATEGIES).map (fun s => s.name)
    have h2 : (HEALING_STRATEGIES.map (fun s => s.name)).Nodup := by decide
    exact List.Nodup.sublist h1 h2

/-- C7 witness: with a context satisfying both the role and the
partial-text strategies (the wait environment reports both queries
visible), the role strategy wins, only it is evaluated, and the
partial-text strategy would indeed also have matched. -/
theorem autoHeal_strategy_order_witness :
    (⟨fun l _ => match l with
       | .first (Locator.byRole "button" (some "Login")) => true
       | .first (Locator.byText "Login" false) => true
       | _ => false⟩ : HealEnv).waitVisible
      (Locator.first (Locator.byText "Login" false)) 2000 = true ∧
    autoHealLocatorT
      ⟨fun l _ => match l with
        | .first (Locator.byRole "button" (some "Login")) => true
        | .first (Locator.byText "Login" false) => true
        | _ => false⟩
      (Locator.css "#login") ⟨"#login", some "button", some "Login", none, none⟩
      DEFAULT_CONFIG =
      (["By Role"], .ok (Locator.first (Locator.byRole "button" (some "Login")))) :=
  ⟨rfl,
   (autoHeal_strategy_order
     ⟨fun l _ => match l with
       | .first (Locator.byRole "button" (some "Login")) => true
       | .first (Locator.byText "Login" false) => true
       | _ => false⟩
     (Locator.css "#login") ⟨"#login", some "button", some "Login", none, none⟩
     DEFAULT_CONFIG 0 (by decide) rfl rfl
     (fun j hj => absurd hj (Nat.not_lt_zero j)) rfl).1⟩

/-- C8 counterexample: the role strategy applied to a context with no
role derives the sentinel css query, and a page containing an element
whose tag name is the sentinel string is matched by that query — the
derived query is not guaranteed to match zero elements on every possible
page. -/
theorem strategy_null_context_counterexample :
    ∃ s ∈ HEALING_STRATEGIES, ∃ ctx : ElementContext,
      requiredField s.name ctx = none ∧
      ∃ page : List Element, matchingElements page (s.locate ctx) ≠ [] := by
  refine ⟨byRoleStrategy, by simp [HEALING_STRATEGIES],
    ⟨"#login", none, some "Login", none, none⟩, rfl,
    [⟨"__nonexistent__", none, none, "", none, none⟩], ?_⟩
  decide

/-- C8 amended: a strategy whose required context field is absent derives
exactly the fixed sentinel css type-selector query __nonexistent__; that
query matches only elements whose tag name is the sentinel string, so it
matches zero elements on every page that contains no such element (it is
not, however, guaranteed to match nothing on every conceivable page). -/
theorem strategy_null_context_sentinel (s : HealingStrategy)
    (hs : s ∈ HEALING_STRATEGIES) (ctx : ElementContext)
    (habs : requiredField s.name ctx = none) :
    s.locate ctx = Locator.css "__nonexistent__" ∧
    ∀ page : List Element, (∀ e ∈ page, e.tag ≠ "__nonexistent__") →
      matchingElements page (s.locate ctx) = [] := by
  have hloc : s.locate ctx = Locator.css "__nonexistent__" := by
    simp only [HEALING_STRATEGIES, List.mem_cons, List.not_mem_nil, or_false] at hs
    rcases hs with rfl | rfl | rfl | rfl | rfl
    all_goals
      simp_all [byRoleStrategy, byTextExactStrategy, byPlaceholderStrategy,
        byTestIdStrategy, byTextPartialStrategy, requiredField, strTruthy]
  refine ⟨hloc, ?_⟩
  intro page hp
  rw [hloc]
  simp only [matchingElements]
  refine List.filter_eq_nil_iff.mpr ?_
  intro e he
  simp only [matchesOne, decide_eq_true_eq]
  exact hp e he

/-- C8 amended witness: for the role strategy with no role in the
context, the derived query is the sentinel and a page without the
sentinel tag yields zero matches. -/
theorem strategy_null_context_sentinel_witness :
    requiredField byRoleStrategy.name ⟨"#login", none, some "Login", none, none⟩ = none ∧
    byRoleStrategy.locate ⟨"#login", none, some "Login", none, none⟩ =
      Locator.css "__nonexistent__" ∧
    matchingElements [⟨"div", some "button", some "Login", "Login", none, none⟩]
      (byRoleStrategy.locate ⟨"#login", none, some "Login", none, none⟩) = [] :=
  ⟨rfl,
   (strategy_null_context_sentinel byRoleStrategy (by simp [HEALING_STRATEGIES])
     ⟨"#login", none, some "Login", none, none⟩ rfl).1,
   (strategy_null_context_sentinel byRoleStrategy (by simp [HEALING_STRATEGIES])
     ⟨"#login", none, some "Login", none, none⟩ rfl).2
     [⟨"div", some "button", some "Login", "Login", none, none⟩] (by decide)⟩
